import Mathlib

/-!
# Verification of the Aliyun STS client request-signing pipeline

Shallow embedding of `src/sts_client.ts` (and its helper module): the
ACS3-HMAC-SHA256 request-signing algorithm of `StsClient.doRequest`, the
response classification, and `StsClient.assumeRole`'s payload assembly.

Modelling conventions:
* JavaScript strings are Lean `String`; byte sequences are `List Nat`
  (each entry a byte value).
* JavaScript `Record<string, string>` objects are association lists
  `List (String × String)` in insertion order; `Object.assign` is the
  right-biased in-place merge `jsAssign`, `Object.entries` is the list
  itself.
* `Array.prototype.sort` (stable, ES2019) with the
  `(a, b) => a[0].localeCompare(b[0])` comparator is modelled as the stable
  `List.insertionSort` by codepoint order on keys.  `localeCompare` is
  locale-sensitive; on the ASCII keys this client produces it coincides
  with codepoint order, which is how it is modelled here.
* `String.prototype.toLowerCase` is modelled as ASCII lower-casing and
  `String.prototype.trim` as stripping the JS whitespace set from both
  ends; both agree with JS on the ASCII data this client handles.
* SHA-256 (`crypto.subtle.digest`) and HMAC-SHA256 (the `hmac` module) are
  implemented in full (FIPS 180-4 / RFC 2104) over `List Nat` bytes with
  arithmetic in `Nat` reduced mod 2^32.
-/

set_option maxRecDepth 100000

namespace Sts

/-! ## Bytes and hex -/

/-- Lower-case hex digit for a value `< 16` (source: `encodeHex` output). -/
def hexDigit (n : Nat) : Char :=
  if n < 10 then Char.ofNat (48 + n) else Char.ofNat (87 + n)

/-- Lower-case two-digit hex rendering of one byte. -/
def hexByte (b : Nat) : List Char :=
  [hexDigit (b / 16 % 16), hexDigit (b % 16)]

/-- `encodeHex` from `std/encoding/hex.ts`: lower-case hex of a byte string. -/
def encodeHex (bs : List Nat) : String :=
  String.mk (bs.flatMap hexByte)

/-- UTF-8 encoding of one Unicode scalar value (code point). -/
def utf8EncodeChar (c : Char) : List Nat :=
  let n := c.toNat
  if n < 0x80 then [n]
  else if n < 0x800 then [0xC0 + n / 64, 0x80 + n % 64]
  else if n < 0x10000 then [0xE0 + n / 4096, 0x80 + n / 64 % 64, 0x80 + n % 64]
  else [0xF0 + n / 262144, 0x80 + n / 4096 % 64, 0x80 + n / 64 % 64, 0x80 + n % 64]

/-- `TextEncoder.encode`: UTF-8 bytes of a string. -/
def utf8Encode (s : String) : List Nat :=
  s.data.flatMap utf8EncodeChar

/-! ## SHA-256 (FIPS 180-4) -/

/-- Truncation to a 32-bit word. -/
def w32 (x : Nat) : Nat := x % 4294967296

/-- Right rotation of a 32-bit word by `n` places. -/
def rotr (n x : Nat) : Nat := w32 ((x >>> n) ||| (x <<< (32 - n)))

def bigSigma0 (x : Nat) : Nat := rotr 2 x ^^^ rotr 13 x ^^^ rotr 22 x
def bigSigma1 (x : Nat) : Nat := rotr 6 x ^^^ rotr 11 x ^^^ rotr 25 x
def smallSigma0 (x : Nat) : Nat := rotr 7 x ^^^ rotr 18 x ^^^ (x >>> 3)
def smallSigma1 (x : Nat) : Nat := rotr 17 x ^^^ rotr 19 x ^^^ (x >>> 10)

/-- SHA-256 round constants (FIPS 180-4: the first 32 bits of the
fractional parts of the cube roots of the first 64 primes), in decimal. -/
def sha256K : List Nat :=
  [1116352408, 1899447441, 3049323471, 3921009573, 961987163,
   1508970993, 2453635748, 2870763221, 3624381080, 310598401,
   607225278, 1426881987, 1925078388, 2162078206, 2614888103,
   3248222580, 3835390401, 4022224774, 264347078, 604807628,
   770255983, 1249150122, 1555081692, 1996064986, 2554220882,
   2821834349, 2952996808, 3210313671, 3336571891, 3584528711,
   113926993, 338241895, 666307205, 773529912, 1294757372,
   1396182291, 1695183700, 1986661051, 2177026350, 2456956037,
   2730485921, 2820302411, 3259730800, 3345764771, 3516065817,
   3600352804, 4094571909, 275423344, 430227734, 506948616,
   659060556, 883997877, 958139571, 1322822218, 1537002063,
   1747873779, 1955562222, 2024104815, 2227730452, 2361852424,
   2428436474, 2756734187, 3204031479, 3329325298]

/-- SHA-256 initial hash value (FIPS 180-4: the first 32 bits of the
fractional parts of the square roots of the first 8 primes), in decimal. -/
def sha256H0 : List Nat :=
  [1779033703, 3144134277, 1013904242, 2773480762,
   1359893119, 2600822924, 528734635, 1541459225]

/-- Big-endian bytes of `n`, `k` bytes wide. -/
def beBytes (n : Nat) : Nat → List Nat
  | 0 => []
  | k + 1 => beBytes (n / 256) k ++ [n % 256]

/-- SHA-256 message padding: append `0x80`, zeros, and the 64-bit bit length. -/
def sha256Pad (msg : List Nat) : List Nat :=
  let l := msg.length
  let zeros := (120 - (l + 1) % 64) % 64
  msg ++ [0x80] ++ List.replicate zeros 0 ++ beBytes (8 * l) 8

/-- Group consecutive bytes into big-endian 32-bit words. -/
def bytesToWords : List Nat → List Nat
  | a :: b :: c :: d :: rest => (((a * 256 + b) * 256 + c) * 256 + d) :: bytesToWords rest
  | _ => []

/-- One extension step of the message schedule, on the reversed schedule
(head is the most recent word). -/
def scheduleStep (w : List Nat) : List Nat :=
  w32 (w.getD 15 0 + smallSigma0 (w.getD 14 0) + w.getD 6 0 + smallSigma1 (w.getD 1 0)) :: w

/-- Iterate a function `n` times. -/
def iterN (f : α → α) : Nat → α → α
  | 0, a => a
  | n + 1, a => iterN f n (f a)

/-- The 64-word message schedule of one 16-word block. -/
def sha256Schedule (block : List Nat) : List Nat :=
  (iterN scheduleStep 48 block.reverse).reverse

/-- Working state of the SHA-256 compression function. -/
structure Sha256State where
  a : Nat
  b : Nat
  c : Nat
  d : Nat
  e : Nat
  f : Nat
  g : Nat
  h : Nat

/-- One SHA-256 round: consume one schedule word paired with its constant. -/
def sha256Round (st : Sha256State) (kw : Nat × Nat) : Sha256State :=
  let ch := (st.e &&& st.f) ^^^ ((st.e ^^^ 4294967295) &&& st.g)
  let maj := (st.a &&& st.b) ^^^ (st.a &&& st.c) ^^^ (st.b &&& st.c)
  let t1 := w32 (st.h + bigSigma1 st.e + ch + kw.1 + kw.2)
  let t2 := w32 (bigSigma0 st.a + maj)
  { a := w32 (t1 + t2), b := st.a, c := st.b, d := st.c,
    e := w32 (st.d + t1), f := st.e, g := st.f, h := st.g }

/-- Compress one 64-byte block into the running hash value. -/
def sha256Compress (hv : List Nat) (block : List Nat) : List Nat :=
  let ws := sha256Schedule (bytesToWords block)
  let st0 : Sha256State :=
    { a := hv.getD 0 0, b := hv.getD 1 0, c := hv.getD 2 0, d := hv.getD 3 0,
      e := hv.getD 4 0, f := hv.getD 5 0, g := hv.getD 6 0, h := hv.getD 7 0 }
  let st := (ws.zip sha256K).foldl sha256Round st0
  [w32 (hv.getD 0 0 + st.a), w32 (hv.getD 1 0 + st.b),
   w32 (hv.getD 2 0 + st.c), w32 (hv.getD 3 0 + st.d),
   w32 (hv.getD 4 0 + st.e), w32 (hv.getD 5 0 + st.f),
   w32 (hv.getD 6 0 + st.g), w32 (hv.getD 7 0 + st.h)]

/-- Split a byte string into 64-byte blocks (fuel-driven for kernel
reduction; `fuel ≥ length` suffices). -/
def chunks64 : Nat → List Nat → List (List Nat)
  | 0, _ => []
  | _, [] => []
  | fuel + 1, l => l.take 64 :: chunks64 fuel (l.drop 64)

/-- SHA-256 digest (32 bytes) of a byte string. -/
def sha256 (msg : List Nat) : List Nat :=
  let padded := sha256Pad msg
  let hv := (chunks64 padded.length padded).foldl sha256Compress sha256H0
  hv.flatMap (fun word => beBytes word 4)

/-- Lower-case hex SHA-256 digest of a byte string, as produced by
`encodeHex(await crypto.subtle.digest("SHA-256", bytes))`. -/
def sha256Hex (msg : List Nat) : String :=
  encodeHex (sha256 msg)

/-! ## HMAC-SHA256 (RFC 2104), as computed by the `hmac` module's
`hmac("sha256", key, message, "utf8", "hex")`. -/

/-- Pad or shorten the key to the 64-byte SHA-256 block size: a key longer
than one block is first hashed, then the key is zero-padded to 64 bytes. -/
def hmacNormalizeKey (key : List Nat) : List Nat :=
  let k := if 64 < key.length then sha256 key else key
  k ++ List.replicate (64 - k.length) 0

/-- HMAC-SHA256 digest of `msg` under `key`, both byte strings. -/
def hmacSha256 (key msg : List Nat) : List Nat :=
  let k := hmacNormalizeKey key
  let ipad := k.map (fun b => b ^^^ 0x36)
  let opad := k.map (fun b => b ^^^ 0x5c)
  sha256 (opad ++ sha256 (ipad ++ msg))

/-- Lower-case hex HMAC-SHA256 of UTF-8 strings (the `hmac(...)` call with
`"utf8"` input and `"hex"` output encodings). -/
def hmacSha256Hex (key msg : String) : String :=
  encodeHex (hmacSha256 (utf8Encode key) (utf8Encode msg))

/-! ## JavaScript string primitives -/

/-- `String.prototype.toLowerCase`, restricted to ASCII case mapping (the
header names this client lower-cases are ASCII). -/
def lowerChar (c : Char) : Char :=
  if 65 ≤ c.toNat ∧ c.toNat ≤ 90 then Char.ofNat (c.toNat + 32) else c

/-- ASCII lower-casing of a string. -/
def lowerStr (s : String) : String :=
  String.mk (s.data.map lowerChar)

/-- The JS `TrimWhiteSpace` character set: WhiteSpace and LineTerminator
code points removed by `String.prototype.trim`. -/
def jsIsWhitespace (c : Char) : Bool :=
  c.toNat ∈ [0x09, 0x0A, 0x0B, 0x0C, 0x0D, 0x20, 0xA0, 0x1680,
    0x2000, 0x2001, 0x2002, 0x2003, 0x2004, 0x2005, 0x2006, 0x2007,
    0x2008, 0x2009, 0x200A, 0x2028, 0x2029, 0x202F, 0x205F, 0x3000, 0xFEFF]

/-- `String.prototype.trim`: strip JS whitespace from both ends. -/
def trimStr (s : String) : String :=
  String.mk (((s.data.dropWhile jsIsWhitespace).reverse.dropWhile
    jsIsWhitespace).reverse)

/-- Characters `encodeURIComponent` leaves unescaped: alphanumerics and
`- _ . ! ~ * ' ( )`. -/
def uriUnreserved (c : Char) : Bool :=
  (48 ≤ c.toNat ∧ c.toNat ≤ 57) ∨ (65 ≤ c.toNat ∧ c.toNat ≤ 90) ∨
    (97 ≤ c.toNat ∧ c.toNat ≤ 122) ∨
    c.toNat ∈ [45, 95, 46, 33, 126, 42, 39, 40, 41]

/-- Upper-case hex digit for a value `< 16` (percent escapes are upper-case). -/
def hexDigitUpper (n : Nat) : Char :=
  if n < 10 then Char.ofNat (48 + n) else Char.ofNat (55 + n)

/-- Percent escape of one byte: `%XY` with upper-case hex. -/
def percentByte (b : Nat) : List Char :=
  ['%', hexDigitUpper (b / 16 % 16), hexDigitUpper (b % 16)]

/-- `encodeURIComponent`: unreserved characters kept, every other character
percent-escaped byte-by-byte in its UTF-8 encoding. -/
def encodeURIComponent (s : String) : String :=
  String.mk (s.data.flatMap (fun c =>
    if uriUnreserved c then [c] else (utf8EncodeChar c).flatMap percentByte))

/-! ## JavaScript objects as association lists -/

/-- Strict codepoint-lexicographic comparison of character lists. -/
def charListLtb : List Char → List Char → Bool
  | [], [] => false
  | [], _ :: _ => true
  | _ :: _, [] => false
  | a :: as, b :: bs =>
    if a.toNat < b.toNat then true
    else if b.toNat < a.toNat then false
    else charListLtb as bs

/-- Strict codepoint order on strings (`a` sorts strictly before `b`). -/
def strLtb (a b : String) : Bool := charListLtb a.data b.data

/-- Non-strict codepoint order on strings. -/
def strLeb (a b : String) : Bool := !(strLtb b a)

/-- Key ordering used by the `(e1, e2) => e1[0].localeCompare(e2[0])` sort
comparator, modelled as codepoint order (see the header comment). -/
def keyLe (p q : String × String) : Prop := strLeb p.1 q.1 = true

instance : DecidableRel keyLe := fun p q => by
  unfold keyLe; infer_instance

/-- `Array.prototype.sort` (stable) with the `localeCompare`-on-keys
comparator: stable sort of the entry list by key. -/
def sortByKey (l : List (String × String)) : List (String × String) :=
  l.insertionSort keyLe

/-- Property lookup on a JS object modelled as an association list. -/
def getVal (l : List (String × String)) (k : String) : Option String :=
  (l.find? (fun p => p.1 == k)).map (fun p => p.2)

/-- `target[k] = v` on a JS object: overwrite in place when the key exists
(keeping its position), append otherwise. -/
def setKey (t : List (String × String)) (kv : String × String) :
    List (String × String) :=
  if t.any (fun p => p.1 == kv.1) then
    t.map (fun p => if p.1 == kv.1 then kv else p)
  else t ++ [kv]

/-- `Object.assign(t, s)`: copy the entries of `s` into `t` in order. -/
def jsAssign (t s : List (String × String)) : List (String × String) :=
  s.foldl setKey t

/-- `pre` is a prefix of `s` (JS `String.prototype.startsWith`). -/
def startsWithStr (s pre : String) : Bool :=
  pre.data.isPrefixOf s.data

/-! ## The signing pipeline of `StsClient.doRequest` -/

/-- The HTTP verb union type of `doRequest`'s `method` parameter. -/
inductive HttpMethod where
  | GET | POST | PUT | DELETE | PATCH | OPTIONS | HEAD
deriving DecidableEq

/-- The string each verb interpolates to in `${method}`. -/
def methodStr : HttpMethod → String
  | .GET => "GET" | .POST => "POST" | .PUT => "PUT" | .DELETE => "DELETE"
  | .PATCH => "PATCH" | .OPTIONS => "OPTIONS" | .HEAD => "HEAD"

/-- `StsClient.defaultHeaders`. -/
def defaultHeaders : List (String × String) :=
  [("x-sdk-client", "deno/1.0.0"),
   ("x-acs-version", "2015-04-01"),
   ("Accept", "application/json")]

/-- The first `Object.assign` source: nonce, timestamp and host headers
injected by `doRequest`. -/
def injectedHeaders (endpoint timeString nonce : String) :
    List (String × String) :=
  [("x-acs-signature-nonce", nonce),
   ("x-acs-date", timeString),
   ("host", endpoint)]

/-- `allHeaders` right after the `Object.assign` merge of the injected
headers, the client defaults, and the caller-supplied headers. -/
def mergedHeaders (endpoint timeString nonce : String)
    (headers : List (String × String)) : List (String × String) :=
  jsAssign (jsAssign (injectedHeaders endpoint timeString nonce)
    defaultHeaders) headers

/-- `key=value` encoding of one entry, as in the canonical query string and
the form payload: `encodeURIComponent(k)=encodeURIComponent(v)`. -/
def encodePair (p : String × String) : String :=
  encodeURIComponent p.1 ++ "=" ++ encodeURIComponent p.2

/-- The canonical query string: entries sorted by key, percent-encoded,
joined with `&`. -/
def canonicalQueryStringOf (query : List (String × String)) : String :=
  String.intercalate "&" ((sortByKey query).map encodePair)

/-- The form payload string: entries percent-encoded and joined with `&`
in object order (no sorting), empty for a `null` payload. -/
def payloadStringOf (payload : Option (List (String × String))) : String :=
  match payload with
  | some l => String.intercalate "&" (l.map encodePair)
  | none => ""

/-- The canonicalized signed-header entries: names lower-cased and values
trimmed, kept only for `host` and the `x-acs-` namespace, sorted by name. -/
def canonicalHeadersOf (allHeaders : List (String × String)) :
    List (String × String) :=
  sortByKey ((allHeaders.map (fun p => (lowerStr p.1, trimStr p.2))).filter
    (fun p => p.1 == "host" || startsWithStr p.1 "x-acs-"))

/-- Everything `doRequest` computes before (and for) dispatching the HTTP
request: the canonicalization and signing intermediates and the final
outgoing header object. -/
structure SigningResult where
  canonicalQueryString : String
  payloadString : String
  payloadHashString : String
  canonicalHeaders : List (String × String)
  canonicalHeaderString : String
  canonicalHeaderNameString : String
  canonicalRequest : String
  string2sign : String
  sigString : String
  authorizationHeader : String
  outHeaders : List (String × String)
  fullUrl : String

/-- The pure computation of `StsClient.doRequest` up to the `fetch` call:
canonical request construction, signing, and header assembly, with the
timestamp and nonce (generated from the clock in the source) passed in. -/
def doRequestSigning (endpoint accessKeyId accessKeySecret : String)
    (method : HttpMethod) (uri : String)
    (headers query : List (String × String))
    (payload : Option (List (String × String)))
    (timeString nonce : String) : SigningResult :=
  let allHeaders0 := mergedHeaders endpoint timeString nonce headers
  let canonicalQueryString := canonicalQueryStringOf query
  let payloadString := payloadStringOf payload
  let payloadBytes := utf8Encode payloadString
  let payloadHashString := sha256Hex payloadBytes
  let allHeaders1 := setKey allHeaders0 ("x-acs-content-sha256", payloadHashString)
  let canonicalHeaders := canonicalHeadersOf allHeaders1
  let canonicalHeaderString :=
    String.intercalate "\n" (canonicalHeaders.map (fun p => p.1 ++ ":" ++ p.2))
  let canonicalHeaderNameString :=
    String.intercalate ";" (canonicalHeaders.map (fun p => p.1))
  let canonicalRequest :=
    methodStr method ++ "\n" ++ uri ++ "\n" ++ canonicalQueryString ++ "\n" ++
      canonicalHeaderString ++ "\n\n" ++ canonicalHeaderNameString ++ "\n" ++
      payloadHashString
  let canonicalRequestHashString := sha256Hex (utf8Encode canonicalRequest)
  let string2sign := "ACS3-HMAC-SHA256" ++ "\n" ++ canonicalRequestHashString
  let sigString := hmacSha256Hex accessKeySecret string2sign
  let authorizationHeader :=
    "ACS3-HMAC-SHA256 Credential=" ++ accessKeyId ++ ",SignedHeaders=" ++
      canonicalHeaderNameString ++ ",Signature=" ++ sigString
  let allHeaders2 := setKey allHeaders1 ("Authorization", authorizationHeader)
  let allHeaders3 :=
    if 0 < payloadString.length then
      setKey allHeaders2 ("Content-Length", Nat.repr payloadBytes.length)
    else allHeaders2
  let allHeaders4 := setKey allHeaders3 ("Content-Type", "application/x-www-form-urlencoded")
  let fullUrl :=
    "https://" ++ endpoint ++ uri ++
      (if 0 < canonicalQueryString.length then "?" else "") ++ canonicalQueryString
  { canonicalQueryString := canonicalQueryString
    payloadString := payloadString
    payloadHashString := payloadHashString
    canonicalHeaders := canonicalHeaders
    canonicalHeaderString := canonicalHeaderString
    canonicalHeaderNameString := canonicalHeaderNameString
    canonicalRequest := canonicalRequest
    string2sign := string2sign
    sigString := sigString
    authorizationHeader := authorizationHeader
    outHeaders := allHeaders4
    fullUrl := fullUrl }

/-! ## Response classification (`doRequest` after the `fetch` call) -/

/-- The `ClientError` class: a message plus optional structured fields from
the server's error envelope. -/
structure ClientError where
  message : String
  requestId : Option String
  hostId : Option String
  code : Option String
  recommend : Option String
deriving DecidableEq

/-- `ClientError.fromHttpError`: only the status code (as a string) is
carried, every other structured field is `undefined`. -/
def ClientError.fromHttpError (message : String) (status : Nat) : ClientError :=
  { message := message, requestId := none, hostId := none,
    code := some (Nat.repr status), recommend := none }

/-- The fields the 4xx branch destructures from the response JSON. -/
structure ErrorEnvelope where
  RequestId : Option String
  HostId : Option String
  Code : Option String
  Message : String
  Recommend : Option String
deriving DecidableEq

/-- The nested `AssumedRoleUser` JSON object of a success response. -/
structure RawAssumedRoleUser where
  AssumedRoleId : String
  Arn : String
deriving DecidableEq

/-- The nested `Credentials` JSON object of a success response. -/
structure RawCredentials where
  SecurityToken : String
  AccessKeyId : String
  AccessKeySecret : String
  Expiration : String
deriving DecidableEq

/-- The fields the success branch reads from the response JSON. -/
structure SuccessBody where
  RequestId : String
  AssumedRoleUser : RawAssumedRoleUser
  Credentials : RawCredentials
deriving DecidableEq

/-- `AssumeRoleResponse.assumedRoleUser`. -/
structure AssumedRoleUser where
  arn : String
  assumedRoleId : String
deriving DecidableEq

/-- `AssumeRoleResponse.credentials`. -/
structure Credentials where
  securityToken : String
  accessKeyId : String
  accessKeySecret : String
  expiration : String
deriving DecidableEq

/-- The typed success result (`AssumeRoleResponse` interface). -/
structure AssumeRoleResponse where
  requestId : String
  assumedRoleUser : AssumedRoleUser
  credentials : Credentials
deriving DecidableEq

/-- The success mapping from the raw JSON body to `AssumeRoleResponse`. -/
def mapSuccessBody (b : SuccessBody) : AssumeRoleResponse :=
  { requestId := b.RequestId
    assumedRoleUser :=
      { assumedRoleId := b.AssumedRoleUser.AssumedRoleId
        arn := b.AssumedRoleUser.Arn }
    credentials :=
      { securityToken := b.Credentials.SecurityToken
        accessKeyId := b.Credentials.AccessKeyId
        accessKeySecret := b.Credentials.AccessKeySecret
        expiration := b.Credentials.Expiration } }

/-- What the `fetch` call observably produced: a response with a status and
a JSON body (carried as both destructurings the code may apply to it), or a
timeout abort (an exception named `TimeoutError`). -/
inductive FetchEvent where
  | response (status : Nat) (errBody : ErrorEnvelope) (okBody : SuccessBody)
  | timeoutError
deriving DecidableEq

/-- How one `doRequest` call ends, as seen by the caller. -/
inductive RequestOutcome where
  | success (r : AssumeRoleResponse)
  | clientError (e : ClientError)
  | timeoutFailure (message : String)
deriving DecidableEq

/-- The response-classification logic of `doRequest`: `>= 500` throws a
status-only `ClientError`, `>= 400` throws a `ClientError` built from the
JSON error envelope, anything else is mapped to `AssumeRoleResponse`; a
`TimeoutError` becomes a plain `Error("request timeout")`. -/
def classifyResponse : FetchEvent → RequestOutcome
  | .response status errBody okBody =>
    if 500 ≤ status then
      .clientError (ClientError.fromHttpError "response status code error" status)
    else if 400 ≤ status then
      .clientError
        { message := errBody.Message, requestId := errBody.RequestId,
          hostId := errBody.HostId, code := errBody.Code,
          recommend := errBody.Recommend }
    else .success (mapSuccessBody okBody)
  | .timeoutError => .timeoutFailure "request timeout"

/-! ## `StsClient.assumeRole` -/

/-- A JSON value that is either a string or an array of strings (the
`string | string[]` fields of the policy language). -/
inductive StrOrList where
  | str (s : String)
  | arr (l : List String)

/-- One policy statement (`StatementBlock` interface). -/
structure StatementBlock where
  Effect : String
  Action : StrOrList
  Resource : StrOrList
  Condition : Option (List (String × List (String × StrOrList)))

/-- The `Policy` interface. -/
structure Policy where
  Version : String
  Statement : List StatementBlock

/-- The `AssumeRoleRequest` class (fields with their source defaults). -/
structure AssumeRoleRequest where
  durationSeconds : Nat := 3600
  policy : Option Policy := none
  roleArn : String
  roleSessionName : String
  externalId : Option String := none

/-- The form payload `assumeRole` builds and passes to `doRequest`.
`JSON.stringify` is taken as a parameter `stringify`: its output string is
placed in the mapping untouched.  An absent (`null`) policy or external id
contributes no key; the empty-string external id is falsy in
`if (config.externalId)` and is likewise skipped. -/
def assumeRolePayload (stringify : Policy → String)
    (config : AssumeRoleRequest) : List (String × String) :=
  let payload := [("DurationSeconds", Nat.repr config.durationSeconds),
                  ("RoleArn", config.roleArn),
                  ("RoleSessionName", config.roleSessionName)]
  let payload := match config.policy with
    | some p => payload ++ [("Policy", stringify p)]
    | none => payload
  match config.externalId with
  | some e => if 0 < e.length then payload ++ [("ExternalId", e)] else payload
  | none => payload

/-- The full `assumeRole` call up to the `fetch`: fixed method `POST`,
path `/`, the `x-acs-action` header, empty query, and the form payload. -/
def assumeRoleSigning (endpoint accessKeyId accessKeySecret : String)
    (stringify : Policy → String) (config : AssumeRoleRequest)
    (timeString nonce : String) : SigningResult :=
  doRequestSigning endpoint accessKeyId accessKeySecret .POST "/"
    [("x-acs-action", "AssumeRole")] []
    (some (assumeRolePayload stringify config)) timeString nonce


/-! # Theorems

Everything below is proved about the definitions above; no further
definitions are introduced.
-/

/-! ## Validation vectors for the hash and MAC models -/

/-- FIPS 180-4 test vector: SHA-256 of `"abc"`. -/
theorem sha256Hex_abc : sha256Hex (utf8Encode "abc") =
    "ba7816bf8f01cfea414140de5dae2223b00361a396177a9cb410ff61f20015ad" := by
  decide

/-- RFC 4231 test case 2 for HMAC-SHA256. -/
theorem hmacSha256Hex_rfc4231 : hmacSha256Hex "Jefe" "what do ya want for nothing?" =
    "5bdcc146bf60754e6a042426089575c75a003f089d2739839dec58b964ec3843" := by
  decide

/-! ## The codepoint order -/

theorem charListLtb_asymm : ∀ {a b : List Char},
    charListLtb a b = true → charListLtb b a = false
  | [], [], h => by simp [charListLtb] at h
  | [], _ :: _, _ => by simp [charListLtb]
  | _ :: _, [], h => by simp [charListLtb] at h
  | a :: as, b :: bs, h => by
    simp only [charListLtb] at h ⊢
    rcases Nat.lt_trichotomy a.toNat b.toNat with hlt | heq | hgt
    · simp [hlt, Nat.lt_asymm hlt]
    · simp only [heq, lt_irrefl, if_false] at h ⊢
      exact charListLtb_asymm h
    · simp [hgt, Nat.lt_asymm hgt] at h

theorem charListLtb_trans : ∀ {a b c : List Char},
    charListLtb a b = true → charListLtb b c = true → charListLtb a c = true
  | [], [], _, h, _ => by simp [charListLtb] at h
  | [], _ :: _, [], _, h' => by simp [charListLtb] at h'
  | [], _ :: _, _ :: _, _, _ => by simp [charListLtb]
  | _ :: _, [], _, h, _ => by simp [charListLtb] at h
  | _ :: _, _ :: _, [], _, h' => by simp [charListLtb] at h'
  | a :: as, b :: bs, c :: cs, h, h' => by
    simp only [charListLtb] at h h' ⊢
    rcases Nat.lt_trichotomy a.toNat b.toNat with hab | hab | hab
    · rcases Nat.lt_trichotomy b.toNat c.toNat with hbc | hbc | hbc
      · simp [Nat.lt_trans hab hbc]
      · simp [hbc ▸ hab]
      · simp [hbc, Nat.lt_asymm hbc] at h'
    · rcases Nat.lt_trichotomy b.toNat c.toNat with hbc | hbc | hbc
      · simp [hab ▸ hbc]
      · simp only [hab, hbc, lt_irrefl, if_false] at h h' ⊢
        exact charListLtb_trans h h'
      · simp [hbc, Nat.lt_asymm hbc] at h'
    · simp [hab, Nat.lt_asymm hab] at h

theorem charListLtb_trichotomy : ∀ {a b : List Char},
    charListLtb a b = false → charListLtb b a = true ∨ a = b
  | [], [], _ => Or.inr rfl
  | [], _ :: _, h => by simp [charListLtb] at h
  | _ :: _, [], _ => by simp [charListLtb]
  | a :: as, b :: bs, h => by
    simp only [charListLtb] at h ⊢
    rcases Nat.lt_trichotomy a.toNat b.toNat with hab | hab | hab
    · simp [hab] at h
    · have : a = b := Char.eq_of_val_eq (UInt32.toNat.inj hab)
      subst this
      simp only [lt_irrefl, if_false] at h ⊢
      rcases charListLtb_trichotomy h with h' | h'
      · exact Or.inl h'
      · exact Or.inr (by rw [h'])
    · simp [hab, Nat.lt_asymm hab]

theorem strLeb_total (a b : String) : strLeb a b = true ∨ strLeb b a = true := by
  simp only [strLeb, strLtb, Bool.not_eq_true']
  cases h : charListLtb b.data a.data
  · exact Or.inl rfl
  · exact Or.inr (charListLtb_asymm h)

theorem strLeb_trans {a b c : String} (h : strLeb a b = true)
    (h' : strLeb b c = true) : strLeb a c = true := by
  simp only [strLeb, strLtb, Bool.not_eq_true'] at h h' ⊢
  by_contra hca
  rw [Bool.not_eq_false] at hca
  rcases charListLtb_trichotomy h with hba | hba
  · exact absurd (charListLtb_trans hca hba) (by simp [h'])
  · rw [hba] at h'
    exact absurd hca (by simp [h'])

/-- Whenever `a` must not sort strictly after `b`, either `a` sorts strictly
before `b` or the two strings are equal. -/
theorem strLeb_lt_or_eq {a b : String} (h : strLeb a b = true) :
    strLtb a b = true ∨ a = b := by
  simp only [strLeb, strLtb, Bool.not_eq_true'] at h ⊢
  rcases charListLtb_trichotomy h with h' | h'
  · exact Or.inl h'
  · exact Or.inr (String.toList_inj.mp h'.symm)

/-! ## Sorting by key -/

theorem sortByKey_perm (l : List (String × String)) : (sortByKey l).Perm l :=
  List.perm_insertionSort keyLe l

theorem sortByKey_sorted (l : List (String × String)) :
    List.Sorted keyLe (sortByKey l) := by
  haveI : IsTotal (String × String) keyLe := ⟨fun p q => strLeb_total p.1 q.1⟩
  haveI : IsTrans (String × String) keyLe := ⟨fun _ _ _ h h' => strLeb_trans h h'⟩
  exact List.sorted_insertionSort keyLe l

/-- On a list whose keys are pairwise distinct, being sorted by `keyLe`
means being sorted by the strict key order. -/
theorem sorted_strict_of_sorted_nodup {s : List (String × String)}
    (hs : List.Sorted keyLe s) (hn : (s.map Prod.fst).Nodup) :
    List.Pairwise (fun p q : String × String => strLtb p.1 q.1 = true) s := by
  have hne : List.Pairwise (fun p q : String × String => p.1 ≠ q.1) s :=
    List.pairwise_map.mp hn
  exact hs.imp₂ (fun p q hle hnq => (strLeb_lt_or_eq hle).resolve_right hnq) hne

/-- Stable sorting by key is insensitive to the input's order as long as
the keys are pairwise distinct. -/
theorem sortByKey_eq_of_perm {l₁ l₂ : List (String × String)}
    (hp : l₁.Perm l₂) (hn : (l₁.map Prod.fst).Nodup) :
    sortByKey l₁ = sortByKey l₂ := by
  haveI : IsAntisymm (String × String) (fun p q => strLtb p.1 q.1 = true) :=
    ⟨fun p q h h' => by
      have := charListLtb_asymm h
      rw [strLtb] at h'
      rw [this] at h'
      exact absurd h' (by simp)⟩
  have hn₁ : ((sortByKey l₁).map Prod.fst).Nodup :=
    ((sortByKey_perm l₁).map Prod.fst).nodup_iff.mpr hn
  have hn₂ : ((sortByKey l₂).map Prod.fst).Nodup :=
    ((sortByKey_perm l₂).map Prod.fst).nodup_iff.mpr
      ((hp.map Prod.fst).nodup_iff.mp hn)
  exact List.eq_of_perm_of_sorted
    ((sortByKey_perm l₁).trans (hp.trans (sortByKey_perm l₂).symm))
    (sorted_strict_of_sorted_nodup (sortByKey_sorted l₁) hn₁)
    (sorted_strict_of_sorted_nodup (sortByKey_sorted l₂) hn₂)

/-! ## Lookup and assignment on modelled JS objects -/

theorem find?_setKey_map_self {t : List (String × String)}
    {kv : String × String} (h : t.any (fun p => p.1 == kv.1) = true) :
    (t.map (fun p => if p.1 == kv.1 then kv else p)).find?
      (fun p => p.1 == kv.1) = some kv := by
  induction t with
  | nil => simp at h
  | cons p t ih =>
    rw [List.map_cons]
    by_cases hp : p.1 = kv.1
    · have hfp : (if (p.1 == kv.1) = true then kv else p) = kv := by simp [hp]
      rw [hfp, List.find?_cons_of_pos _ (by simp)]
    · have h' : t.any (fun p => p.1 == kv.1) = true := by
        simpa [hp] using h
      have hfp : (if (p.1 == kv.1) = true then kv else p) = p := by simp [hp]
      rw [hfp, List.find?_cons_of_neg _ (by simpa using hp)]
      exact ih h'

theorem find?_setKey_map_ne {t : List (String × String)}
    {kv : String × String} {k : String} (h : k ≠ kv.1) :
    (t.map (fun p => if p.1 == kv.1 then kv else p)).find?
      (fun p => p.1 == k) = t.find? (fun p => p.1 == k) := by
  induction t with
  | nil => rfl
  | cons p t ih =>
    rw [List.map_cons]
    by_cases hp : p.1 = kv.1
    · have hk' : ¬ p.1 = k := by rw [hp]; exact fun hh => h hh.symm
      have hfp : (if (p.1 == kv.1) = true then kv else p) = kv := by simp [hp]
      rw [hfp, List.find?_cons_of_neg _ (by simpa using fun hh => h hh.symm),
        List.find?_cons_of_neg _ (by simpa using hk'), ih]
    · have hfp : (if (p.1 == kv.1) = true then kv else p) = p := by simp [hp]
      by_cases hpk : p.1 = k
      · rw [hfp, List.find?_cons_of_pos _ (by simpa using hpk),
          List.find?_cons_of_pos _ (by simpa using hpk)]
      · rw [hfp, List.find?_cons_of_neg _ (by simpa using hpk),
          List.find?_cons_of_neg _ (by simpa using hpk), ih]

/-- Property lookup after a single JS assignment: the assigned key reads
back the assigned value, every other key is untouched. -/
theorem getVal_setKey (t : List (String × String)) (kv : String × String)
    (k : String) :
    getVal (setKey t kv) k =
      if k = kv.1 then some kv.2 else getVal t k := by
  unfold getVal setKey
  by_cases hk : k = kv.1
  · rw [if_pos hk]
    by_cases ha : t.any (fun p => p.1 == kv.1) = true
    · rw [if_pos ha, hk, find?_setKey_map_self ha]
      rfl
    · have ha' : ∀ p ∈ t, ¬ (p.1 == kv.1) = true := by
        intro p hp hpk
        exact ha (List.any_eq_true.mpr ⟨p, hp, hpk⟩)
      rw [if_neg ha, hk, List.find?_append, List.find?_eq_none.mpr ha']
      simp [List.find?_cons]
  · rw [if_neg hk]
    by_cases ha : t.any (fun p => p.1 == kv.1) = true
    · rw [if_pos ha, find?_setKey_map_ne hk]
    · rw [if_neg ha, List.find?_append]
      have hlast : List.find? (fun p => p.1 == k) [kv] = none := by
        simp only [List.find?_cons, List.find?_nil]
        have : (kv.1 == k) = false := by
          simpa using fun hh => hk hh.symm
        rw [this]
      rw [hlast]
      cases List.find? (fun p => p.1 == k) t <;> rfl

/-- `getVal_setKey` with the assigned pair split into key and value. -/
theorem getVal_setKey' (t : List (String × String)) (k v k' : String) :
    getVal (setKey t (k, v)) k' = if k' = k then some v else getVal t k' :=
  getVal_setKey t (k, v) k'

/-- Keys a JS object ends up with after one assignment do not depend on the
assigned value. -/
theorem map_fst_setKey (t : List (String × String)) (k v v' : String) :
    (setKey t (k, v)).map Prod.fst = (setKey t (k, v')).map Prod.fst := by
  unfold setKey
  by_cases ha : t.any (fun p => p.1 == k) = true
  · simp only [ha, if_true, List.map_map]
    apply List.map_congr_left
    intro p _
    by_cases hp : p.1 = k <;> simp [hp]
  · simp only [Bool.not_eq_true] at ha
    simp [ha]

theorem getVal_jsAssign_notMem {s : List (String × String)} {k : String}
    (h : ¬ k ∈ s.map Prod.fst) (t : List (String × String)) :
    getVal (jsAssign t s) k = getVal t k := by
  induction s generalizing t with
  | nil => rfl
  | cons kv s ih =>
    simp only [List.map_cons, List.mem_cons, not_or] at h
    have step : jsAssign t (kv :: s) = jsAssign (setKey t kv) s := rfl
    rw [step, ih h.2, getVal_setKey, if_neg h.1]

/-- When the source object binds `k` (its keys being pairwise distinct, as
object keys are), assignment makes the target read back that binding. -/
theorem getVal_jsAssign_mem {s : List (String × String)} {k v : String}
    (hv : getVal s k = some v) (hn : (s.map Prod.fst).Nodup)
    (t : List (String × String)) :
    getVal (jsAssign t s) k = some v := by
  induction s generalizing t with
  | nil => simp [getVal] at hv
  | cons kv s ih =>
    simp only [List.map_cons, List.nodup_cons] at hn
    have step : jsAssign t (kv :: s) = jsAssign (setKey t kv) s := rfl
    by_cases hk : k = kv.1
    · have hvv : kv.2 = v := by
        have : (kv.1 == k) = true := by simp [hk]
        simpa [getVal, List.find?_cons, this] using hv
      have hks : ¬ k ∈ s.map Prod.fst := by rw [hk]; exact hn.1
      rw [step, getVal_jsAssign_notMem hks, getVal_setKey, if_pos hk, hvv]
    · have hv' : getVal s k = some v := by
        have : (kv.1 == k) = false := by simpa using fun hh => hk hh.symm
        simpa [getVal, List.find?_cons, this] using hv
      rw [step]
      exact ih hv' hn.2 (setKey t kv)

/-- JS assignment respects permutation of the target object's entry list. -/
theorem setKey_perm {t₁ t₂ : List (String × String)} (h : t₁.Perm t₂)
    (kv : String × String) : (setKey t₁ kv).Perm (setKey t₂ kv) := by
  unfold setKey
  have hany : t₁.any (fun p => p.1 == kv.1) = t₂.any (fun p => p.1 == kv.1) := by
    rw [Bool.eq_iff_iff]
    simp only [List.any_eq_true]
    exact ⟨fun ⟨x, hx, hpx⟩ => ⟨x, h.mem_iff.mp hx, hpx⟩,
      fun ⟨x, hx, hpx⟩ => ⟨x, h.mem_iff.mpr hx, hpx⟩⟩
  rw [hany]
  by_cases ha : t₂.any (fun p => p.1 == kv.1) = true
  · simp only [ha, if_true]
    exact h.map _
  · simp only [Bool.not_eq_true] at ha
    simp only [ha, Bool.false_eq_true, if_false]
    exact h.append_right _

theorem jsAssign_congr {t₁ t₂ : List (String × String)} (h : t₁.Perm t₂) :
    ∀ s, (jsAssign t₁ s).Perm (jsAssign t₂ s) := by
  intro s
  induction s generalizing t₁ t₂ with
  | nil => exact h
  | cons kv s ih => exact ih (setKey_perm h kv)

/-- Replacing the value stored under a key never changes an entry's key. -/
theorem fst_replace (a p : String × String) :
    (if p.1 == a.1 then a else p).1 = p.1 := by
  by_cases hp : p.1 = a.1 <;> simp [hp]

theorem any_key_map_replace (t : List (String × String))
    (a : String × String) (k : String) :
    (t.map (fun p => if p.1 == a.1 then a else p)).any (fun p => p.1 == k) =
      t.any (fun p => p.1 == k) := by
  induction t with
  | nil => rfl
  | cons p t ih =>
    rw [List.map_cons, List.any_cons, List.any_cons, ih, fst_replace]

theorem setKey_eq_map {t : List (String × String)} {kv : String × String}
    (h : t.any (fun p => p.1 == kv.1) = true) :
    setKey t kv = t.map (fun p => if p.1 == kv.1 then kv else p) := by
  unfold setKey
  rw [if_pos h]

theorem setKey_eq_append {t : List (String × String)} {kv : String × String}
    (h : t.any (fun p => p.1 == kv.1) = false) :
    setKey t kv = t ++ [kv] := by
  unfold setKey
  rw [if_neg (by simp [h])]

/-- Two JS assignments with distinct keys commute up to permutation of the
entry list. -/
theorem setKey_comm {a b : String × String} (hne : a.1 ≠ b.1)
    (t : List (String × String)) :
    (setKey (setKey t a) b).Perm (setKey (setKey t b) a) := by
  have hab : (a.1 == b.1) = false := by simpa using hne
  have hba : (b.1 == a.1) = false := by simpa using fun hh => hne hh.symm
  cases ha : t.any (fun p => p.1 == a.1) <;>
    cases hb : t.any (fun p => p.1 == b.1)
  · -- neither key present: both orders append, differing only in the order
    -- of the two appended entries
    rw [setKey_eq_append ha, setKey_eq_append hb,
      setKey_eq_append (by rw [List.any_append]; simp [hb, hab]),
      setKey_eq_append (by rw [List.any_append]; simp [ha, hba]),
      List.append_assoc, List.append_assoc]
    exact List.Perm.append_left t (List.Perm.swap b a [])
  · -- only `b` present: `b` is replaced and `a` appended in either order
    rw [setKey_eq_append ha, setKey_eq_map hb,
      setKey_eq_map (by rw [List.any_append]; simp [hb]),
      setKey_eq_append (by rw [any_key_map_replace]; exact ha),
      List.map_append,
      show [a].map (fun p => if p.1 == b.1 then b else p) = [a] from by
        simp only [List.map_cons, List.map_nil, hab, Bool.false_eq_true,
          if_false]]
  · -- only `a` present: `a` is replaced and `b` appended in either order
    rw [setKey_eq_map ha, setKey_eq_append hb,
      setKey_eq_append (by rw [any_key_map_replace]; exact hb),
      setKey_eq_map (by rw [List.any_append]; simp [ha]),
      List.map_append,
      show [b].map (fun p => if p.1 == a.1 then a else p) = [b] from by
        simp only [List.map_cons, List.map_nil, hba, Bool.false_eq_true,
          if_false]]
  · -- both present: two independent in-place replacements commute
    rw [setKey_eq_map ha, setKey_eq_map hb,
      setKey_eq_map (by rw [any_key_map_replace]; exact hb),
      setKey_eq_map (by rw [any_key_map_replace]; exact ha),
      List.map_map, List.map_map]
    have hcomp : ∀ p ∈ t,
        ((fun q => if q.1 == b.1 then b else q) ∘
          (fun q => if q.1 == a.1 then a else q)) p =
        ((fun q => if q.1 == a.1 then a else q) ∘
          (fun q => if q.1 == b.1 then b else q)) p := by
      intro p _
      show (if (if p.1 == a.1 then a else p).1 == b.1 then b
          else (if p.1 == a.1 then a else p)) =
        (if (if p.1 == b.1 then b else p).1 == a.1 then a
          else (if p.1 == b.1 then b else p))
      by_cases hpa : p.1 = a.1
      · have hpb : ¬ p.1 = b.1 := by rw [hpa]; exact hne
        simp [hpa, hpb, hab]
      · by_cases hpb : p.1 = b.1
        · simp [hpa, hpb, hba]
        · simp [hpa, hpb]
    rw [List.map_congr_left hcomp]

/-- JS assignment is insensitive to the iteration order of the source
object, provided the source's keys are pairwise distinct (as the keys of
an actual JS object are). -/
theorem jsAssign_perm {s₁ s₂ : List (String × String)} (h : s₁.Perm s₂) :
    (s₁.map Prod.fst).Nodup →
      ∀ t : List (String × String), (jsAssign t s₁).Perm (jsAssign t s₂) := by
  induction h with
  | nil => exact fun _ _ => List.Perm.refl _
  | cons x h ih =>
    intro hn t
    simp only [List.map_cons, List.nodup_cons] at hn
    exact ih hn.2 (setKey t x)
  | swap x y l =>
    intro hn t
    have hne : y.1 ≠ x.1 := by
      simp only [List.map_cons, List.nodup_cons, List.mem_cons] at hn
      exact fun hh => hn.1 (Or.inl hh)
    exact jsAssign_congr (setKey_comm hne t) l
  | trans h₁ h₂ ih₁ ih₂ =>
    intro hn t
    have hn₂ := ((h₁.map Prod.fst).nodup_iff).mp hn
    exact (ih₁ hn t).trans (ih₂ hn₂ t)

/-- String concatenation is associative. -/
theorem strAppend_assoc (a b c : String) : a ++ b ++ c = a ++ (b ++ c) :=
  congrArg String.mk (List.append_assoc a.data b.data c.data)

/-! ## The claims -/

/-- C1: for every HTTP method, URI path, query mapping, header mapping and
body, the canonical request text is the concatenation, in fixed order, of
the method, the URI path, the canonical query string, the canonical header
string, an empty line separator, the signed header names and the payload
hash, each of the first six fields followed by a single newline — also when
the query string or the header string is empty, since the equation holds
for every `query` and `headers` value. -/
theorem claim1_canonical_request_layout
    (endpoint accessKeyId accessKeySecret : String) (method : HttpMethod)
    (uri : String) (headers query : List (String × String))
    (payload : Option (List (String × String))) (timeString nonce : String) :
    (doRequestSigning endpoint accessKeyId accessKeySecret method uri headers
        query payload timeString nonce).canonicalRequest =
      methodStr method ++ "\n" ++ uri ++ "\n" ++
        (doRequestSigning endpoint accessKeyId accessKeySecret method uri
          headers query payload timeString nonce).canonicalQueryString ++
        "\n" ++
        (doRequestSigning endpoint accessKeyId accessKeySecret method uri
          headers query payload timeString nonce).canonicalHeaderString ++
        "\n" ++ "" ++ "\n" ++
        (doRequestSigning endpoint accessKeyId accessKeySecret method uri
          headers query payload timeString nonce).canonicalHeaderNameString ++
        "\n" ++
        (doRequestSigning endpoint accessKeyId accessKeySecret method uri
          headers query payload timeString nonce).payloadHashString := by
  simp only [doRequestSigning, strAppend_assoc]
  rfl

/-- C5: the string to sign is the algorithm identifier `ACS3-HMAC-SHA256`,
a newline, and the lower-case hex SHA-256 digest of the canonical request
text; the signature is the lower-case hex HMAC-SHA256 keyed by the raw
UTF-8 bytes of the access-key secret applied to the string-to-sign
bytes. -/
theorem claim5_string_to_sign_and_signature
    (endpoint accessKeyId accessKeySecret : String) (method : HttpMethod)
    (uri : String) (headers query : List (String × String))
    (payload : Option (List (String × String))) (timeString nonce : String) :
    (doRequestSigning endpoint accessKeyId accessKeySecret method uri headers
        query payload timeString nonce).string2sign =
      "ACS3-HMAC-SHA256" ++ "\n" ++
        sha256Hex (utf8Encode
          (doRequestSigning endpoint accessKeyId accessKeySecret method uri
            headers query payload timeString nonce).canonicalRequest) ∧
    (doRequestSigning endpoint accessKeyId accessKeySecret method uri headers
        query payload timeString nonce).sigString =
      encodeHex (hmacSha256 (utf8Encode accessKeySecret)
        (utf8Encode
          (doRequestSigning endpoint accessKeyId accessKeySecret method uri
            headers query payload timeString nonce).string2sign)) :=
  ⟨rfl, rfl⟩

/-- C6: the authorization header value is the algorithm identifier, one
space, then `Credential=`, `SignedHeaders=` and `Signature=` entries joined
by commas, with no spaces around the equals signs. -/
theorem claim6_authorization_header_layout
    (endpoint accessKeyId accessKeySecret : String) (method : HttpMethod)
    (uri : String) (headers query : List (String × String))
    (payload : Option (List (String × String))) (timeString nonce : String) :
    (doRequestSigning endpoint accessKeyId accessKeySecret method uri headers
        query payload timeString nonce).authorizationHeader =
      "ACS3-HMAC-SHA256" ++ " " ++ "Credential=" ++ accessKeyId ++ "," ++
        "SignedHeaders=" ++
        (doRequestSigning endpoint accessKeyId accessKeySecret method uri
          headers query payload timeString nonce).canonicalHeaderNameString ++
        "," ++ "Signature=" ++
        (doRequestSigning endpoint accessKeyId accessKeySecret method uri
          headers query payload timeString nonce).sigString := by
  simp only [doRequestSigning, strAppend_assoc]
  rfl

/-- C2: the canonical query string is obtained by sorting the entries by
key in codepoint order, percent-encoding each key and value and joining
the pairs with an ampersand; an empty value encodes as the bare key with a
trailing equals sign, the empty mapping yields the empty string, and the
mapping with `b` bound to `2` and `a` bound to `1` yields `a=1&b=2`. -/
theorem claim2_canonical_query_string
    (endpoint accessKeyId accessKeySecret : String) (method : HttpMethod)
    (uri : String) (headers query : List (String × String))
    (payload : Option (List (String × String))) (timeString nonce : String) :
    ((doRequestSigning endpoint accessKeyId accessKeySecret method uri headers
        query payload timeString nonce).canonicalQueryString =
      String.intercalate "&" ((sortByKey query).map
        (fun kv => encodeURIComponent kv.1 ++ "=" ++ encodeURIComponent kv.2))) ∧
    List.Sorted keyLe (sortByKey query) ∧ (sortByKey query).Perm query ∧
    (∀ k : String, encodeURIComponent k ++ "=" ++ encodeURIComponent "" =
      encodeURIComponent k ++ "=") ∧
    canonicalQueryStringOf [] = "" ∧
    canonicalQueryStringOf [("b", "2"), ("a", "1")] = "a=1&b=2" := by
  refine ⟨rfl, sortByKey_sorted query, sortByKey_perm query, ?_, rfl, by decide⟩
  intro k
  show encodeURIComponent k ++ "=" ++ "" = encodeURIComponent k ++ "="
  exact congrArg String.mk (List.append_nil _)

/-- C3: the canonical header entries are exactly the input headers whose
name is `host` or starts with `x-acs-` case-insensitively, with names
lower-cased and values trimmed, sorted by name; the canonical header
string joins them as `name:value` lines with newlines and the signed
header names join the same names with semicolons; the example mapping with
`Host`, `X-Acs-Date` and `Unrelated` keeps only `host` and `x-acs-date`,
with signed header names `host;x-acs-date`. -/
theorem claim3_canonical_headers (l : List (String × String)) :
    (∀ n v : String, (n, v) ∈ canonicalHeadersOf l ↔
      ∃ kv ∈ l, lowerStr kv.1 = n ∧ trimStr kv.2 = v ∧
        (n = "host" ∨ startsWithStr n "x-acs-" = true)) ∧
    List.Sorted keyLe (canonicalHeadersOf l) ∧
    (∀ (endpoint accessKeyId accessKeySecret : String) (method : HttpMethod)
        (uri : String) (headers query : List (String × String))
        (payload : Option (List (String × String))) (timeString nonce : String),
      (doRequestSigning endpoint accessKeyId accessKeySecret method uri
          headers query payload timeString nonce).canonicalHeaderString =
        String.intercalate "\n"
          ((doRequestSigning endpoint accessKeyId accessKeySecret method uri
            headers query payload timeString nonce).canonicalHeaders.map
            (fun kv => kv.1 ++ ":" ++ kv.2)) ∧
      (doRequestSigning endpoint accessKeyId accessKeySecret method uri
          headers query payload timeString nonce).canonicalHeaderNameString =
        String.intercalate ";"
          ((doRequestSigning endpoint accessKeyId accessKeySecret method uri
            headers query payload timeString nonce).canonicalHeaders.map
            (fun kv => kv.1)) ∧
      (doRequestSigning endpoint accessKeyId accessKeySecret method uri
          headers query payload timeString nonce).canonicalHeaders =
        canonicalHeadersOf
          (setKey (mergedHeaders endpoint timeString nonce headers)
            ("x-acs-content-sha256",
              sha256Hex (utf8Encode (payloadStringOf payload))))) ∧
    canonicalHeadersOf [("Host", "x"), ("X-Acs-Date", "t"), ("Unrelated", "y")] =
      [("host", "x"), ("x-acs-date", "t")] ∧
    String.intercalate ";"
      ((canonicalHeadersOf
        [("Host", "x"), ("X-Acs-Date", "t"), ("Unrelated", "y")]).map
        (fun kv => kv.1)) = "host;x-acs-date" := by
  refine ⟨?_, ?_, fun _ _ _ _ _ _ _ _ _ _ => ⟨rfl, rfl, rfl⟩, by decide, by decide⟩
  · intro n v
    unfold canonicalHeadersOf sortByKey
    rw [List.mem_insertionSort, List.mem_filter]
    constructor
    · rintro ⟨hmem, hsel⟩
      rcases List.mem_map.mp hmem with ⟨kv, hkv, heq⟩
      refine ⟨kv, hkv, ?_, ?_, ?_⟩
      · exact congrArg Prod.fst heq
      · exact congrArg Prod.snd heq
      · have := hsel
        rw [Bool.or_eq_true, beq_iff_eq] at this
        exact this.imp id id
    · rintro ⟨kv, hkv, hn, hv, hsel⟩
      refine ⟨List.mem_map.mpr ⟨kv, hkv, by rw [hn, hv]⟩, ?_⟩
      rw [Bool.or_eq_true, beq_iff_eq]
      exact hsel.imp id id
  · exact sortByKey_sorted _

/-- C4: a request with an absent or empty body hashes to the well-known
SHA-256 digest of the empty byte sequence, and for every request the
payload hash is stored in the outgoing headers under
`x-acs-content-sha256`. -/
theorem claim4_payload_hash
    (endpoint accessKeyId accessKeySecret : String) (method : HttpMethod)
    (uri : String) (headers query : List (String × String))
    (payload : Option (List (String × String))) (timeString nonce : String) :
    (payload = none →
      (doRequestSigning endpoint accessKeyId accessKeySecret method uri
          headers query payload timeString nonce).payloadHashString =
        "e3b0c44298fc1c149afbf4c8996fb92427ae41e4649b934ca495991b7852b855") ∧
    (payload = some [] →
      (doRequestSigning endpoint accessKeyId accessKeySecret method uri
          headers query payload timeString nonce).payloadHashString =
        "e3b0c44298fc1c149afbf4c8996fb92427ae41e4649b934ca495991b7852b855") ∧
    getVal (doRequestSigning endpoint accessKeyId accessKeySecret method uri
        headers query payload timeString nonce).outHeaders
      "x-acs-content-sha256" =
      some (doRequestSigning endpoint accessKeyId accessKeySecret method uri
        headers query payload timeString nonce).payloadHashString := by
  refine ⟨?_, ?_, ?_⟩
  · rintro rfl
    simp only [doRequestSigning]
    decide
  · rintro rfl
    simp only [doRequestSigning]
    decide
  · simp only [doRequestSigning]
    rw [getVal_setKey', if_neg (by decide)]
    by_cases hlen : 0 < (payloadStringOf payload).length
    · rw [if_pos hlen, getVal_setKey', if_neg (by decide),
        getVal_setKey', if_neg (by decide), getVal_setKey', if_pos rfl]
    · rw [if_neg hlen, getVal_setKey', if_neg (by decide),
        getVal_setKey', if_pos rfl]

/-- C4 witness: at a concrete bodyless request the payload hash is the
empty-input SHA-256 digest and it is stored under `x-acs-content-sha256`. -/
theorem claim4_payload_hash_witness :
    (doRequestSigning "sts.aliyuncs.com" "akid" "secret" .POST "/" [] [] none
        "2024-01-01T00:00:00Z" "1700000000000").payloadHashString =
      "e3b0c44298fc1c149afbf4c8996fb92427ae41e4649b934ca495991b7852b855" ∧
    getVal (doRequestSigning "sts.aliyuncs.com" "akid" "secret" .POST "/" []
        [] none "2024-01-01T00:00:00Z" "1700000000000").outHeaders
      "x-acs-content-sha256" =
      some (doRequestSigning "sts.aliyuncs.com" "akid" "secret" .POST "/" []
        [] none "2024-01-01T00:00:00Z" "1700000000000").payloadHashString := by
  obtain ⟨h1, _, h3⟩ := claim4_payload_hash "sts.aliyuncs.com" "akid" "secret"
    .POST "/" [] [] none "2024-01-01T00:00:00Z" "1700000000000"
  exact ⟨h1 rfl, h3⟩

/-- C7: a 2xx response maps the JSON body to the typed result, a 4xx
response raises a `ClientError` filled from the JSON error envelope, a 5xx
response raises a `ClientError` carrying only the status code, and a
timeout raises a distinct timeout error that is a different outcome
constructor from every server-side error and every success. -/
theorem claim7_response_classification :
    (∀ (status : Nat) (eb : ErrorEnvelope) (ok : SuccessBody),
      200 ≤ status → status < 300 →
      classifyResponse (.response status eb ok) = .success (mapSuccessBody ok)) ∧
    (∀ (status : Nat) (eb : ErrorEnvelope) (ok : SuccessBody),
      400 ≤ status → status < 500 →
      classifyResponse (.response status eb ok) =
        .clientError { message := eb.Message,
                       requestId := eb.RequestId,
                       hostId := eb.HostId,
                       code := eb.Code,
                       recommend := eb.Recommend }) ∧
    (∀ (status : Nat) (eb : ErrorEnvelope) (ok : SuccessBody),
      500 ≤ status →
      classifyResponse (.response status eb ok) =
        .clientError
          (ClientError.fromHttpError "response status code error" status)) ∧
    (∀ (msg : String) (status : Nat),
      ClientError.fromHttpError msg status =
        { message := msg,
          requestId := none,
          hostId := none,
          code := some (Nat.repr status),
          recommend := none }) ∧
    classifyResponse .timeoutError = .timeoutFailure "request timeout" ∧
    (∀ (m : String) (e : ClientError),
      RequestOutcome.timeoutFailure m ≠ .clientError e) ∧
    (∀ (m : String) (r : AssumeRoleResponse),
      RequestOutcome.timeoutFailure m ≠ .success r) := by
  refine ⟨?_, ?_, ?_, fun _ _ => rfl, rfl, ?_, ?_⟩
  · intro status eb ok h1 h2
    simp only [classifyResponse]
    rw [if_neg (by omega), if_neg (by omega)]
  · intro status eb ok h1 h2
    simp only [classifyResponse]
    rw [if_neg (by omega), if_pos (by omega)]
  · intro status eb ok h
    simp only [classifyResponse]
    rw [if_pos h]
  · intro m e h
    exact RequestOutcome.noConfusion h
  · intro m r h
    exact RequestOutcome.noConfusion h

/-- C7 witness: the classification at concrete 200, 403 and 503 responses.
The envelope and body fields are given positionally
(`RequestId, HostId, Code, Message, Recommend` and
`RequestId, AssumedRoleUser, Credentials`). -/
theorem claim7_response_classification_witness :
    classifyResponse (.response 200 ⟨none, none, none, "m", none⟩
        ⟨"r", ⟨"i", "a"⟩, ⟨"t", "k", "s", "e"⟩⟩) =
      .success (mapSuccessBody ⟨"r", ⟨"i", "a"⟩, ⟨"t", "k", "s", "e"⟩⟩) ∧
    classifyResponse (.response 403
        ⟨some "rid", some "hid", some "code", "msg", some "rec"⟩
        ⟨"r", ⟨"i", "a"⟩, ⟨"t", "k", "s", "e"⟩⟩) =
      .clientError ⟨"msg", some "rid", some "hid", some "code", some "rec"⟩ ∧
    classifyResponse (.response 503 ⟨none, none, none, "m", none⟩
        ⟨"r", ⟨"i", "a"⟩, ⟨"t", "k", "s", "e"⟩⟩) =
      .clientError
        (ClientError.fromHttpError "response status code error" 503) := by
  obtain ⟨h2xx, h4xx, h5xx, _, _, _, _⟩ := claim7_response_classification
  exact ⟨h2xx 200 _ _ (by decide) (by decide),
    h4xx 403 _ _ (by decide) (by decide), h5xx 503 _ _ (by decide)⟩

/-- C9: when the policy field is set, `assumeRole` places its serialization
(the output of the `JSON.stringify` parameter, unchanged) into the request
body's form mapping under the key `Policy`; when the policy field is null,
no `Policy` key appears in the mapping.  The statement holds for every
policy and every serialization function, so no local validation or
enforcement of the policy takes place. -/
theorem claim9_policy_serialized_verbatim (stringify : Policy → String)
    (config : AssumeRoleRequest) :
    (∀ p : Policy, config.policy = some p →
      getVal (assumeRolePayload stringify config) "Policy" =
        some (stringify p)) ∧
    (config.policy = none →
      getVal (assumeRolePayload stringify config) "Policy" = none ∧
      ∀ v : String, ¬ ("Policy", v) ∈ assumeRolePayload stringify config) := by
  constructor
  · intro p hp
    unfold assumeRolePayload
    rw [hp]
    cases hext : config.externalId with
    | none => simp [getVal, List.find?_cons]
    | some e =>
      by_cases hel : 0 < e.length
      · simp [getVal, List.find?_cons, hel]
      · simp [getVal, List.find?_cons, hel]
  · intro hp
    unfold assumeRolePayload
    rw [hp]
    cases hext : config.externalId with
    | none =>
      constructor
      · simp [getVal, List.find?_cons]
      · intro v
        simp
    | some e =>
      by_cases hel : 0 < e.length
      · constructor
        · simp [getVal, List.find?_cons, hel]
        · intro v
          simp [hel]
      · constructor
        · simp [getVal, List.find?_cons, hel]
        · intro v
          simp [hel]

/-- C9 witness: a concrete request with a policy stores its serialization
under `Policy`; the same request without a policy has no `Policy` key. -/
theorem claim9_policy_serialized_verbatim_witness :
    getVal (assumeRolePayload (fun _ => "POLICY-JSON")
        ⟨3600, some ⟨"1", []⟩, "arn", "sess", none⟩) "Policy" =
      some "POLICY-JSON" ∧
    getVal (assumeRolePayload (fun _ => "POLICY-JSON")
        ⟨3600, none, "arn", "sess", none⟩) "Policy" = none := by
  constructor
  · exact (claim9_policy_serialized_verbatim (fun _ => "POLICY-JSON")
      ⟨3600, some ⟨"1", []⟩, "arn", "sess", none⟩).1 ⟨"1", []⟩ rfl
  · exact ((claim9_policy_serialized_verbatim (fun _ => "POLICY-JSON")
      ⟨3600, none, "arn", "sess", none⟩).2 rfl).1

/-- C10: a caller-supplied header overrides the injected host, timestamp
and nonce headers and the client defaults (same exact name, caller wins in
the merge), while the content-hash header and the `Authorization` header
are assigned after the merge, so their computed values stand regardless of
what the caller supplied under those names. -/
theorem claim10_caller_override_and_computed_headers
    (endpoint accessKeyId accessKeySecret : String) (method : HttpMethod)
    (uri : String) (headers query : List (String × String))
    (payload : Option (List (String × String))) (timeString nonce : String) :
    (∀ k v : String,
      (k = "host" ∨ k = "x-acs-date" ∨ k = "x-acs-signature-nonce" ∨
        k = "x-sdk-client" ∨ k = "x-acs-version" ∨ k = "Accept") →
      (headers.map Prod.fst).Nodup →
      getVal headers k = some v →
      getVal (doRequestSigning endpoint accessKeyId accessKeySecret method
        uri headers query payload timeString nonce).outHeaders k = some v) ∧
    getVal (doRequestSigning endpoint accessKeyId accessKeySecret method uri
        headers query payload timeString nonce).outHeaders
      "x-acs-content-sha256" =
      some (doRequestSigning endpoint accessKeyId accessKeySecret method uri
        headers query payload timeString nonce).payloadHashString ∧
    getVal (doRequestSigning endpoint accessKeyId accessKeySecret method uri
        headers query payload timeString nonce).outHeaders "Authorization" =
      some (doRequestSigning endpoint accessKeyId accessKeySecret method uri
        headers query payload timeString nonce).authorizationHeader := by
  refine ⟨?_, ?_, ?_⟩
  · intro k v hk hn hv
    have hCT : ¬ k = "Content-Type" := by
      rcases hk with rfl | rfl | rfl | rfl | rfl | rfl <;> decide
    have hCL : ¬ k = "Content-Length" := by
      rcases hk with rfl | rfl | rfl | rfl | rfl | rfl <;> decide
    have hAu : ¬ k = "Authorization" := by
      rcases hk with rfl | rfl | rfl | rfl | rfl | rfl <;> decide
    have hCS : ¬ k = "x-acs-content-sha256" := by
      rcases hk with rfl | rfl | rfl | rfl | rfl | rfl <;> decide
    simp only [doRequestSigning]
    rw [getVal_setKey', if_neg hCT]
    by_cases hlen : 0 < (payloadStringOf payload).length
    · rw [if_pos hlen, getVal_setKey', if_neg hCL, getVal_setKey',
        if_neg hAu, getVal_setKey', if_neg hCS]
      exact getVal_jsAssign_mem hv hn _
    · rw [if_neg hlen, getVal_setKey', if_neg hAu, getVal_setKey',
        if_neg hCS]
      exact getVal_jsAssign_mem hv hn _
  · simp only [doRequestSigning]
    rw [getVal_setKey', if_neg (by decide)]
    by_cases hlen : 0 < (payloadStringOf payload).length
    · rw [if_pos hlen, getVal_setKey', if_neg (by decide),
        getVal_setKey', if_neg (by decide), getVal_setKey', if_pos rfl]
    · rw [if_neg hlen, getVal_setKey', if_neg (by decide),
        getVal_setKey', if_pos rfl]
  · simp only [doRequestSigning]
    rw [getVal_setKey', if_neg (by decide)]
    by_cases hlen : 0 < (payloadStringOf payload).length
    · rw [if_pos hlen, getVal_setKey', if_neg (by decide),
        getVal_setKey', if_pos rfl]
    · rw [if_neg hlen, getVal_setKey', if_pos rfl]

/-- C10 witness: with a caller-supplied `host` header, the outgoing
headers keep the caller's value, while the content hash and authorization
headers read back the computed values. -/
theorem claim10_caller_override_witness :
    getVal (doRequestSigning "sts.aliyuncs.com" "akid" "secret" .POST "/"
        [("host", "caller.example.com")] [] none "2024-01-01T00:00:00Z"
        "1700000000000").outHeaders "host" = some "caller.example.com" ∧
    getVal (doRequestSigning "sts.aliyuncs.com" "akid" "secret" .POST "/"
        [("host", "caller.example.com")] [] none "2024-01-01T00:00:00Z"
        "1700000000000").outHeaders "x-acs-content-sha256" =
      some (doRequestSigning "sts.aliyuncs.com" "akid" "secret" .POST "/"
        [("host", "caller.example.com")] [] none "2024-01-01T00:00:00Z"
        "1700000000000").payloadHashString ∧
    getVal (doRequestSigning "sts.aliyuncs.com" "akid" "secret" .POST "/"
        [("host", "caller.example.com")] [] none "2024-01-01T00:00:00Z"
        "1700000000000").outHeaders "Authorization" =
      some (doRequestSigning "sts.aliyuncs.com" "akid" "secret" .POST "/"
        [("host", "caller.example.com")] [] none "2024-01-01T00:00:00Z"
        "1700000000000").authorizationHeader := by
  obtain ⟨h1, h2, h3⟩ := claim10_caller_override_and_computed_headers
    "sts.aliyuncs.com" "akid" "secret" .POST "/"
    [("host", "caller.example.com")] [] none "2024-01-01T00:00:00Z"
    "1700000000000"
  exact ⟨h1 "host" "caller.example.com" (Or.inl rfl) (by decide) (by decide),
    h2, h3⟩

/-- C8 counterexample: two header lists that represent the same mapping
(they are permutations of each other, with pairwise-distinct exact keys)
but produce different canonical requests, because the keys `X-Acs-A` and
`x-acs-a` collide after lower-casing and the stable sort then preserves
their different input orders. -/
theorem claim8_counterexample :
    [("X-Acs-A", "1"), ("x-acs-a", "2")].Perm
      [("x-acs-a", "2"), ("X-Acs-A", "1")] ∧
    ([("X-Acs-A", "1"), ("x-acs-a", "2")].map Prod.fst).Nodup ∧
    ¬ ((doRequestSigning "sts.aliyuncs.com" "akid" "secret" .POST "/"
          [("X-Acs-A", "1"), ("x-acs-a", "2")] [] none "2024-01-01T00:00:00Z"
          "1700000000000").canonicalRequest =
        (doRequestSigning "sts.aliyuncs.com" "akid" "secret" .POST "/"
          [("x-acs-a", "2"), ("X-Acs-A", "1")] [] none "2024-01-01T00:00:00Z"
          "1700000000000").canonicalRequest ∧
      (doRequestSigning "sts.aliyuncs.com" "akid" "secret" .POST "/"
          [("X-Acs-A", "1"), ("x-acs-a", "2")] [] none "2024-01-01T00:00:00Z"
          "1700000000000").authorizationHeader =
        (doRequestSigning "sts.aliyuncs.com" "akid" "secret" .POST "/"
          [("x-acs-a", "2"), ("X-Acs-A", "1")] [] none "2024-01-01T00:00:00Z"
          "1700000000000").authorizationHeader) := by
  refine ⟨List.Perm.swap _ _ _, by decide, ?_⟩
  intro hcontra
  exact absurd hcontra.1 (by decide)

/-- C8 (amended): for two invocations with the same method, path, header
mapping, query mapping, body, timestamp, nonce and secret, the canonical
request string and the final authorization header value are byte-identical
regardless of the iteration order of the input header and query mappings —
provided additionally that no two names of the outgoing header set (the
injected and caller-supplied headers together, plus the content-hash
header) coincide after lower-casing. -/
theorem claim8_determinism
    (endpoint accessKeyId accessKeySecret : String) (method : HttpMethod)
    (uri : String) (h₁ h₂ q₁ q₂ : List (String × String))
    (payload : Option (List (String × String))) (timeString nonce : String)
    (hh : h₁.Perm h₂) (hhn : (h₁.map Prod.fst).Nodup)
    (hq : q₁.Perm q₂) (hqn : (q₁.map Prod.fst).Nodup)
    (hlow : ((setKey (mergedHeaders endpoint timeString nonce h₁)
        ("x-acs-content-sha256",
          sha256Hex (utf8Encode (payloadStringOf payload)))).map
        (fun kv => lowerStr kv.1)).Nodup) :
    (doRequestSigning endpoint accessKeyId accessKeySecret method uri h₁ q₁
        payload timeString nonce).canonicalRequest =
      (doRequestSigning endpoint accessKeyId accessKeySecret method uri h₂
        q₂ payload timeString nonce).canonicalRequest ∧
    (doRequestSigning endpoint accessKeyId accessKeySecret method uri h₁ q₁
        payload timeString nonce).authorizationHeader =
      (doRequestSigning endpoint accessKeyId accessKeySecret method uri h₂
        q₂ payload timeString nonce).authorizationHeader := by
  have hq' : canonicalQueryStringOf q₁ = canonicalQueryStringOf q₂ := by
    unfold canonicalQueryStringOf
    rw [sortByKey_eq_of_perm hq hqn]
  have hAB : (mergedHeaders endpoint timeString nonce h₁).Perm
      (mergedHeaders endpoint timeString nonce h₂) :=
    jsAssign_perm hh hhn _
  have h12 : (setKey (mergedHeaders endpoint timeString nonce h₁)
      ("x-acs-content-sha256",
        sha256Hex (utf8Encode (payloadStringOf payload)))).Perm
      (setKey (mergedHeaders endpoint timeString nonce h₂)
        ("x-acs-content-sha256",
          sha256Hex (utf8Encode (payloadStringOf payload)))) :=
    setKey_perm hAB _
  have hmapped := h12.map (fun kv => (lowerStr kv.1, trimStr kv.2))
  have hfilt := hmapped.filter
    (fun kv => kv.1 == "host" || startsWithStr kv.1 "x-acs-")
  have hmm : ((setKey (mergedHeaders endpoint timeString nonce h₁)
      ("x-acs-content-sha256",
        sha256Hex (utf8Encode (payloadStringOf payload)))).map
        (fun kv => (lowerStr kv.1, trimStr kv.2))).map Prod.fst =
      (setKey (mergedHeaders endpoint timeString nonce h₁)
        ("x-acs-content-sha256",
          sha256Hex (utf8Encode (payloadStringOf payload)))).map
        (fun kv => lowerStr kv.1) := by
    rw [List.map_map]
    rfl
  have hnodup : ((((setKey (mergedHeaders endpoint timeString nonce h₁)
      ("x-acs-content-sha256",
        sha256Hex (utf8Encode (payloadStringOf payload)))).map
        (fun kv => (lowerStr kv.1, trimStr kv.2))).filter
        (fun kv => kv.1 == "host" || startsWithStr kv.1 "x-acs-")).map
        Prod.fst).Nodup := by
    refine List.Sublist.nodup ((List.filter_sublist _).map Prod.fst) ?_
    rw [hmm]
    exact hlow
  have hch : canonicalHeadersOf (setKey
      (mergedHeaders endpoint timeString nonce h₁)
      ("x-acs-content-sha256",
        sha256Hex (utf8Encode (payloadStringOf payload)))) =
      canonicalHeadersOf (setKey
        (mergedHeaders endpoint timeString nonce h₂)
        ("x-acs-content-sha256",
          sha256Hex (utf8Encode (payloadStringOf payload)))) := by
    unfold canonicalHeadersOf
    exact sortByKey_eq_of_perm hfilt hnodup
  constructor
  · simp only [doRequestSigning]
    rw [hq', hch]
  · simp only [doRequestSigning]
    rw [hq', hch]

/-- C8 witness: a concrete pair of reordered header and query mappings with
case-insensitively distinct header names yields identical canonical
requests and authorization headers. -/
theorem claim8_determinism_witness :
    ([("X-Acs-Meta", "1"), ("User-Agent", "ua")].map Prod.fst).Nodup ∧
    ([("b", "2"), ("a", "1")].map Prod.fst).Nodup ∧
    ((setKey (mergedHeaders "sts.aliyuncs.com" "2024-01-01T00:00:00Z"
        "1700000000000" [("X-Acs-Meta", "1"), ("User-Agent", "ua")])
        ("x-acs-content-sha256",
          sha256Hex (utf8Encode (payloadStringOf none)))).map
        (fun kv => lowerStr kv.1)).Nodup ∧
    (doRequestSigning "sts.aliyuncs.com" "akid" "secret" .POST "/"
        [("X-Acs-Meta", "1"), ("User-Agent", "ua")] [("b", "2"), ("a", "1")]
        none "2024-01-01T00:00:00Z" "1700000000000").canonicalRequest =
      (doRequestSigning "sts.aliyuncs.com" "akid" "secret" .POST "/"
        [("User-Agent", "ua"), ("X-Acs-Meta", "1")] [("a", "1"), ("b", "2")]
        none "2024-01-01T00:00:00Z" "1700000000000").canonicalRequest ∧
    (doRequestSigning "sts.aliyuncs.com" "akid" "secret" .POST "/"
        [("X-Acs-Meta", "1"), ("User-Agent", "ua")] [("b", "2"), ("a", "1")]
        none "2024-01-01T00:00:00Z" "1700000000000").authorizationHeader =
      (doRequestSigning "sts.aliyuncs.com" "akid" "secret" .POST "/"
        [("User-Agent", "ua"), ("X-Acs-Meta", "1")] [("a", "1"), ("b", "2")]
        none "2024-01-01T00:00:00Z" "1700000000000").authorizationHeader := by
  obtain ⟨hcr, hauth⟩ := claim8_determinism "sts.aliyuncs.com" "akid"
    "secret" .POST "/" [("X-Acs-Meta", "1"), ("User-Agent", "ua")]
    [("User-Agent", "ua"), ("X-Acs-Meta", "1")] [("b", "2"), ("a", "1")]
    [("a", "1"), ("b", "2")] none "2024-01-01T00:00:00Z" "1700000000000"
    (List.Perm.swap _ _ _) (by decide) (List.Perm.swap _ _ _) (by decide)
    (by decide)
  exact ⟨by decide, by decide, by decide, hcr, hauth⟩

end Sts
